import Mathlib
/-!
Shallow embedding of rclone's pixeldrain backend API client
(`backend/pixeldrain/api_client.go`) and proofs of the specified
properties of its error mapper, node/path model and remote operations.

Go strings are modelled as Lean `String` values (their `data` character
lists standing in for the byte content; all constants involved are
ASCII, where characters and bytes coincide).
-/
/-- Model of Go `strings.TrimPrefix(s, pfx)`: returns `s` without the
provided leading `pfx` string; if `s` does not start with `pfx`, `s` is
returned unchanged. -/
def trimPrefix (s pfx : String) : String :=
  if pfx.data.isPrefixOf s.data then String.mk (s.data.drop pfx.data.length) else s
/-- Model of Go `time.Time` restricted to a UTC wall-clock reading, which
is all the API client feeds into `Format(time.RFC3339Nano)`. -/
structure GoTime where
  year : Nat
  month : Nat
  day : Nat
  hour : Nat
  minute : Nat
  second : Nat
  nano : Nat
deriving Repr, DecidableEq
/-- Decimal rendering of `n` left-padded with zeros to `width` digits. -/
def padNum (width n : Nat) : String :=
  let s := toString n
  String.mk (List.replicate (width - s.length) '0') ++ s
/-- Drop trailing zero characters, as Go layout fragment `.999999999` does
with the sub-second digits. -/
def trimTrailingZeros (s : List Char) : List Char :=
  (s.reverse.dropWhile (fun c => c == '0')).reverse
/-- The fractional-second part of `RFC3339Nano`: empty when the
nanosecond count is zero, otherwise a dot followed by the nine nanosecond
digits with trailing zeros removed. -/
def nanoFrac (nano : Nat) : String :=
  if nano = 0 then "" else "." ++ String.mk (trimTrailingZeros (padNum 9 nano).data)
/-- Model of Go `t.Format(time.RFC3339Nano)` for a UTC time `t`. -/
def formatRFC3339Nano (t : GoTime) : String :=
  padNum 4 t.year ++ "-" ++ padNum 2 t.month ++ "-" ++ padNum 2 t.day ++ "T" ++
    padNum 2 t.hour ++ ":" ++ padNum 2 t.minute ++ ":" ++ padNum 2 t.second ++
    nanoFrac t.nano ++ "Z"
/-- FilesystemNode is the return value of the GET /filesystem/ API
(struct `FilesystemNode` in api_client.go; Go `type` is rendered
`nodeType`, the JSON `map[string]string` as an association list). -/
structure FilesystemNode where
  nodeType : String
  path : String
  name : String
  created : GoTime
  modified : GoTime
  modeStr : String
  modeOctal : String
  fileSize : Int
  fileType : String
  sha256Sum : String
  id : String
  readPassword : String
  writePassword : String
  properties : List (String × String)
deriving Repr, DecidableEq
/-- Permissions contains the actions a user can perform on an object. -/
structure Permissions where
  create : Bool
  read : Bool
  update : Bool
  delete : Bool
deriving Repr, DecidableEq
/-- Response of a stat query: the ancestor chain, the index of the queried
node within it, the children listing and the caller's permission bits
(struct `FilesystemPath` in api_client.go; `base_index`, a Go `int`, is
modelled as `Int` so that out-of-range values from the wire are
representable). -/
structure FilesystemPath where
  path : List FilesystemNode
  baseIndex : Int
  children : List FilesystemNode
  permissions : Permissions
deriving Repr, DecidableEq
/-- The JSON error payload `{value, message}` (struct `ApiError`). -/
structure ApiError where
  statusCode : String
  message : String
deriving Repr, DecidableEq
/-- Model of the Go method `func (e ApiError) Error() string`, the
error-string rendering of an `ApiError`. -/
def ApiError.Error (e : ApiError) : String := e.statusCode
/-- The possible results of `apiErrorHandler`: the five sentinel error
values it can map a status code to (`errNotFound`, `fs.ErrorDirectoryNotEmpty`,
`errExists`, `errAuthenticationFailed`, `fs.ErrorPermissionDenied`), the
fall-through return of the decoded `ApiError` itself, and the wrapping
error produced when decoding the body fails. -/
inductive MappedError where
  | errNotFound
  | errorDirectoryNotEmpty
  | errExists
  | errAuthenticationFailed
  | errorPermissionDenied
  | apiError (e : ApiError)
  | decodeFailure (wrapped : String)
deriving Repr, DecidableEq
/-- Model of `apiErrorHandler`. The JSON decoding of the response body is
external I/O, so the function takes the decode step's outcome: `.error msg`
when `json.Decode` failed with message `msg`, `.ok e` when it produced the
payload `e`. The Go `fmt.Errorf("failed to parse error json: %w", err)`
wrap is rendered as the prefixed message string. -/
def apiErrorHandler (body : Except String ApiError) : MappedError :=
  match body with
  | .error msg => .decodeFailure ("failed to parse error json: " ++ msg)
  | .ok e =>
    if e.statusCode = "path_not_found" then .errNotFound
    else if e.statusCode = "directory_not_empty" then .errorDirectoryNotEmpty
    else if e.statusCode = "node_already_exists" then .errExists
    else if e.statusCode = "authentication_failed" then .errAuthenticationFailed
    else if e.statusCode = "permission_denied" then .errorPermissionDenied
    else .apiError e
/-- The scope configuration of the backend that the operations in
api_client.go consume: only the configured path-scope string is read by
them (field `pathPrefix` of the Go `Fs` struct, whose remaining fields are
transport and option state external to this layer). -/
structure Fs where
  pathPrefix : String
deriving Repr, DecidableEq
/-- The in-memory handle constructed from API responses (struct `Object`;
its fields are taken from the construction sites in `pathToObject` and
`nodeToObject`: the owning scope, the base node pointed into the path
slice, the ancestor sequence and the children sequence). -/
structure Object where
  fs : Fs
  base : FilesystemNode
  path : List FilesystemNode
  children : List FilesystemNode
deriving Repr, DecidableEq
/-- Model of `(f *Fs) pathToObject`: trim the path prefix from the parent
and the child nodes, then build the handle whose base is the path element
at `base_index`. The unchecked Go slice indexing `fsp.Path[fsp.BaseIndex]`
panics when the index is out of range; the model returns `none` exactly
there. -/
def Fs.pathToObject (f : Fs) (fsp : FilesystemPath) : Option Object :=
  let stripped := fsp.path.map fun n => { n with path := trimPrefix n.path f.pathPrefix }
  let strippedChildren :=
    fsp.children.map fun n => { n with path := trimPrefix n.path f.pathPrefix }
  if h : 0 ≤ fsp.baseIndex ∧ fsp.baseIndex.toNat < stripped.length then
    some { fs := f, base := stripped.get ⟨fsp.baseIndex.toNat, h.2⟩,
           path := stripped, children := strippedChildren }
  else
    none
/-- Model of `(f *Fs) nodeToObject`: trim the path prefix from the single
node and build a handle with no ancestor sequence and no children. -/
def Fs.nodeToObject (f : Fs) (node : FilesystemNode) : Object :=
  let stripped := { node with path := trimPrefix node.path f.pathPrefix }
  { fs := f, base := stripped, path := [], children := [] }
/-- Model of Go `url.Values` together with `Set` semantics: a map from
keys to values, rendered as an association list in which `set` replaces
any previous binding of the key. -/
abbrev Values : Type := List (String × String)
/-- Model of `url.Values.Set`: replace the binding for `k` by `v`. -/
def Values.set (vs : Values) (k v : String) : Values :=
  (List.filter (fun p => p.1 != k) vs) ++ [(k, v)]
/-- Look up the value bound to key `k`, if any. -/
def Values.get (vs : Values) (k : String) : Option String :=
  (List.find? (fun p => p.1 == k) vs).map (fun p => p.2)
/-- Whether any binding for key `k` is present. -/
def Values.has (vs : Values) (k : String) : Bool :=
  List.any vs (fun p => p.1 == k)
/-- UTF-8 byte sequence of a single character (Go strings are byte
strings; `url.PathEscape` operates on the UTF-8 bytes). -/
def utf8Bytes (c : Char) : List Nat :=
  let n := c.toNat
  if n < 0x80 then [n]
  else if n < 0x800 then
    [0xC0 ||| (n >>> 6), 0x80 ||| (n &&& 0x3F)]
  else if n < 0x10000 then
    [0xE0 ||| (n >>> 12), 0x80 ||| ((n >>> 6) &&& 0x3F), 0x80 ||| (n &&& 0x3F)]
  else
    [0xF0 ||| (n >>> 18), 0x80 ||| ((n >>> 12) &&& 0x3F),
     0x80 ||| ((n >>> 6) &&& 0x3F), 0x80 ||| (n &&& 0x3F)]
/-- Go `shouldEscape(c, encodePathSegment)` from net/url: alphanumerics
and the marks `-_.~` stay; of the reserved set only `/;,?` are escaped in
a path segment; every other byte is escaped. -/
def shouldEscapeInPathSegment (b : Nat) : Bool :=
  if (0x61 ≤ b && b ≤ 0x7A) || (0x41 ≤ b && b ≤ 0x5A) || (0x30 ≤ b && b ≤ 0x39) then
    false
  else if b == 0x2D || b == 0x5F || b == 0x2E || b == 0x7E then
    false
  else if b == 0x24 || b == 0x26 || b == 0x2B || b == 0x2C || b == 0x2F ||
      b == 0x3A || b == 0x3B || b == 0x3D || b == 0x3F || b == 0x40 then
    b == 0x2F || b == 0x3B || b == 0x2C || b == 0x3F
  else
    true
/-- Upper-case hexadecimal digit, as net/url's `upperhex` table. -/
def upperHexDigit (n : Nat) : Char :=
  List.getD "0123456789ABCDEF".data n '0'
/-- Percent-escape a single byte when required in a path segment. -/
def escapeByte (b : Nat) : List Char :=
  if shouldEscapeInPathSegment b then
    ['%', upperHexDigit (b / 16), upperHexDigit (b % 16)]
  else
    [Char.ofNat b]
/-- Model of Go `url.PathEscape`: escape the string so it can be placed
inside a URL path segment. -/
def pathEscape (s : String) : String :=
  String.mk (List.flatten (List.map escapeByte (List.flatten (List.map utf8Bytes s.data))))
/-- The observable shape of one request handed to the rest transport by
an operation of api_client.go: HTTP method, escaped path segment, query
parameters, multipart form parameters and the no-response flag (body
streams and open options are transport state outside this model). -/
structure Request where
  method : String
  path : String
  parameters : Values
  multipartParams : Values
  noResponse : Bool
deriving Repr
/-- Model of `(f *Fs) put`: write content at a path, always telling the
server to create missing parent directories. -/
def Fs.put (f : Fs) (path : String) : Request :=
  { method := "PUT"
    path := pathEscape path
    parameters := [("make_parents", "true")]
    multipartParams := []
    noResponse := false }
/-- Model of `(f *Fs) update`: the Go `fields map[string]any` argument
carries at most the keys `created` and `modified`, each a `time.Time`, so
it is rendered as the two optional times. -/
def Fs.update (f : Fs) (path : String) (created modified : Option GoTime) : Request :=
  let params := Values.set [] "action" "update"
  let params := match created with
    | some c => Values.set params "created" (formatRFC3339Nano c)
    | none => params
  let params := match modified with
    | some m => Values.set params "modified" (formatRFC3339Nano m)
    | none => params
  { method := "POST"
    path := pathEscape path
    parameters := []
    multipartParams := params
    noResponse := false }
/-- Model of `(f *Fs) rename`: move a node from `src` to `dst`; the form
target is the destination with the scope's path prefix prepended. -/
def Fs.rename (f : Fs) (src dst : String) : Request :=
  { method := "POST"
    path := pathEscape src
    parameters := []
    multipartParams := [("action", "rename"), ("target", f.pathPrefix ++ dst)]
    noResponse := true }
/-- Model of `(f *Fs) delete`: remove a node, with the recursive query
flag set only when requested. -/
def Fs.delete (f : Fs) (path : String) (recursive : Bool) : Request :=
  let params : Values := if recursive then [("recursive", "true")] else []
  { method := "DELETE"
    path := pathEscape path
    parameters := params
    multipartParams := []
    noResponse := true }
/-- Whether a mapped error is one of the five semantic error kinds of the
taxonomy (NotFound, DirectoryNotEmpty, AlreadyExists, AuthenticationFailed,
PermissionDenied). -/
def MappedError.isSemanticKind : MappedError → Bool
  | .errNotFound => true
  | .errorDirectoryNotEmpty => true
  | .errExists => true
  | .errAuthenticationFailed => true
  | .errorPermissionDenied => true
  | .apiError _ => false
  | .decodeFailure _ => false
/-- A directory node with the given raw path and fixed bookkeeping
fields, used to build concrete `FilesystemPath` inputs. -/
def mkNode (p : String) : FilesystemNode :=
  { nodeType := "dir", path := p, name := "", created := ⟨2024, 1, 1, 0, 0, 0, 0⟩,
    modified := ⟨2024, 1, 1, 0, 0, 0, 0⟩, modeStr := "drwxr-xr-x", modeOctal := "0755",
    fileSize := 0, fileType := "", sha256Sum := "", id := "", readPassword := "",
    writePassword := "", properties := [] }
/-- A stat response whose single node's raw path is the scope string
`a` doubled, so that one strip leaves a path that still begins with the
scope string. -/
def cexFsp : FilesystemPath :=
  { path := [mkNode "aa"], baseIndex := 0, children := [],
    permissions := ⟨true, true, true, true⟩ }
/-- A stat response under scope `/u/123` with two ancestors and one
child, the queried node being the second path element. -/
def witFsp : FilesystemPath :=
  { path := [mkNode "/u/123", mkNode "/u/123/a"], baseIndex := 1,
    children := [mkNode "/u/123/a/b"], permissions := ⟨true, true, true, true⟩ }
/-- The handle that `pathToObject` builds from `witFsp` under scope
`/u/123`. -/
def witObj : Object :=
  { fs := ⟨"/u/123"⟩, base := mkNode "/a",
    path := [mkNode "", mkNode "/a"], children := [mkNode "/a/b"] }
/-- A list is a prefix (in the Boolean sense) of itself followed by anything. -/
theorem isPrefixOf_append_self (p x : List Char) : p.isPrefixOf (p ++ x) = true := by
  induction p with
  | nil => simp
  | cons a as ih => simp [List.isPrefixOf_cons₂, ih]
/-- Boolean prefix test agrees with existence of a remainder. -/
theorem isPrefixOf_iff_exists (p s : List Char) :
    p.isPrefixOf s = true ↔ ∃ t, s = p ++ t := by
  constructor
  · intro h
    induction p generalizing s with
    | nil => exact ⟨s, rfl⟩
    | cons a as ih =>
      cases s with
      | nil => simp at h
      | cons b bs =>
        rw [List.isPrefixOf_cons₂] at h
        have hab : a = b := by
          have := (Bool.and_eq_true _ _).mp h |>.1
          exact eq_of_beq this
        obtain ⟨t, ht⟩ := ih bs ((Bool.and_eq_true _ _).mp h).2
        exact ⟨t, by simp [hab, ht]⟩
  · rintro ⟨t, rfl⟩
    exact isPrefixOf_append_self p t
/-- C1: for every decoded error payload, `apiErrorHandler` maps the code
`path_not_found` to NotFound, `directory_not_empty` to DirectoryNotEmpty,
`node_already_exists` to AlreadyExists, `authentication_failed` to
AuthenticationFailed and `permission_denied` to PermissionDenied, and any
other code to the opaque `ApiError` itself, with both the code and the
message fields retained verbatim. -/
theorem apiErrorHandler_code_mapping :
    (∀ m, apiErrorHandler (.ok ⟨"path_not_found", m⟩) = .errNotFound) ∧
    (∀ m, apiErrorHandler (.ok ⟨"directory_not_empty", m⟩) = .errorDirectoryNotEmpty) ∧
    (∀ m, apiErrorHandler (.ok ⟨"node_already_exists", m⟩) = .errExists) ∧
    (∀ m, apiErrorHandler (.ok ⟨"authentication_failed", m⟩) = .errAuthenticationFailed) ∧
    (∀ m, apiErrorHandler (.ok ⟨"permission_denied", m⟩) = .errorPermissionDenied) ∧
    (∀ v m, v ≠ "path_not_found" → v ≠ "directory_not_empty" →
      v ≠ "node_already_exists" → v ≠ "authentication_failed" →
      v ≠ "permission_denied" →
      apiErrorHandler (.ok ⟨v, m⟩) = .apiError ⟨v, m⟩) := by
  refine ⟨fun m => rfl, fun m => rfl, fun m => rfl, fun m => rfl, fun m => rfl, ?_⟩
  intro v m h1 h2 h3 h4 h5
  simp [apiErrorHandler, h1, h2, h3, h4, h5]
/-- Witness for C1: the fall-through case at a concrete unrecognized
code. -/
theorem apiErrorHandler_code_mapping_witness :
    apiErrorHandler (.ok ⟨"quota_exceeded", "too much data"⟩) =
      .apiError ⟨"quota_exceeded", "too much data"⟩ :=
  apiErrorHandler_code_mapping.2.2.2.2.2 "quota_exceeded" "too much data"
    (by decide) (by decide) (by decide) (by decide) (by decide)
/-- C7: when the error body cannot be decoded, `apiErrorHandler` returns
the wrapping decode error carrying the underlying decode failure, never
one of the semantic error kinds. -/
theorem apiErrorHandler_decode_failure (msg : String) :
    apiErrorHandler (.error msg) =
      .decodeFailure ("failed to parse error json: " ++ msg) ∧
    (apiErrorHandler (.error msg)).isSemanticKind = false :=
  ⟨rfl, rfl⟩
/-- C10: the error-string rendering of an `ApiError` is the status code
alone — it does not depend on the message — while the opaque fall-through
of `apiErrorHandler` retains both the code and the message as fields. -/
theorem apiError_error_string :
    (∀ v m : String, (ApiError.mk v m).Error = v) ∧
    (∀ v m m' : String, (ApiError.mk v m).Error = (ApiError.mk v m').Error) ∧
    (∀ v m, v ≠ "path_not_found" → v ≠ "directory_not_empty" →
      v ≠ "node_already_exists" → v ≠ "authentication_failed" →
      v ≠ "permission_denied" →
      ∃ e, apiErrorHandler (.ok ⟨v, m⟩) = .apiError e ∧
        e.statusCode = v ∧ e.message = m ∧ e.Error = v) := by
  refine ⟨fun v m => rfl, fun v m m' => rfl, ?_⟩
  intro v m h1 h2 h3 h4 h5
  exact ⟨⟨v, m⟩, by simp [apiErrorHandler, h1, h2, h3, h4, h5], rfl, rfl, rfl⟩
/-- Witness for C10: rendering and retention at a concrete unrecognized
payload. -/
theorem apiError_error_string_witness :
    (ApiError.mk "some_new_code" "human text").Error = "some_new_code" ∧
    ∃ e, apiErrorHandler (.ok ⟨"some_new_code", "human text"⟩) = .apiError e ∧
      e.statusCode = "some_new_code" ∧ e.message = "human text" ∧
      e.Error = "some_new_code" :=
  ⟨apiError_error_string.1 "some_new_code" "human text",
   apiError_error_string.2.2 "some_new_code" "human text"
     (by decide) (by decide) (by decide) (by decide) (by decide)⟩
/-- Counterexample for C3: stripping is not idempotent in general — with
the one-character scope string `a` and input `aa`, one strip yields `a`
and a second strip yields the empty string. -/
theorem trimPrefix_not_idempotent :
    trimPrefix (trimPrefix "aa" "a") "a" ≠ trimPrefix "aa" "a" := by decide
/-- C3 (amended): stripping `p` from `p ++ x` yields `x`, and stripping
leaves a string that does not start with `p` unchanged; stripping twice
agrees with stripping once whenever the result of the first strip does
not itself start with `p` again (without that proviso idempotence fails,
see the counterexample). -/
theorem trimPrefix_spec :
    (∀ p x : String, trimPrefix (p ++ x) p = x) ∧
    (∀ p s : String, p.data.isPrefixOf s.data = false → trimPrefix s p = s) ∧
    (∀ p s : String, p.data.isPrefixOf (trimPrefix s p).data = false →
      trimPrefix (trimPrefix s p) p = trimPrefix s p) := by
  refine ⟨?_, ?_, ?_⟩
  · intro p x
    have hdata : (p ++ x).data = p.data ++ x.data := String.data_append p x
    simp only [trimPrefix, hdata, isPrefixOf_append_self, if_true]
    rw [List.drop_left]
  · intro p s h
    simp [trimPrefix, h]
  · intro p s h
    conv_lhs => rw [trimPrefix]
    simp [h]
/-- Witness for C3: the three parts instantiated at the scope string
`/u/123` and concrete paths. -/
theorem trimPrefix_spec_witness :
    trimPrefix ("/u/123" ++ "/a/b") "/u/123" = "/a/b" ∧
    trimPrefix "/a/b" "/u/123" = "/a/b" ∧
    trimPrefix (trimPrefix "/u/123/a/b" "/u/123") "/u/123" =
      trimPrefix "/u/123/a/b" "/u/123" :=
  ⟨trimPrefix_spec.1 "/u/123" "/a/b",
   trimPrefix_spec.2.1 "/u/123" "/a/b" (by decide),
   trimPrefix_spec.2.2 "/u/123" "/u/123/a/b" (by decide)⟩
/-- C5: every rename request sends the form parameter `target` equal to
the configured scope path-string followed by the destination, alongside
`action=rename`, while the request path segment is the percent-escaped
bare source path with nothing prepended; in particular, renaming
`/a/old` to `/a/new` under scope `/u/123` sends target `/u/123/a/new`
and request path `%2Fa%2Fold`. -/
theorem rename_target_prefixing (f : Fs) (src dst : String) :
    ((f.rename src dst).multipartParams.get "target" = some (f.pathPrefix ++ dst)) ∧
    ((f.rename src dst).multipartParams.get "action" = some "rename") ∧
    ((f.rename src dst).path = pathEscape src) ∧
    (((Fs.mk "/u/123").rename "/a/old" "/a/new").multipartParams.get "target" =
      some "/u/123/a/new") ∧
    (((Fs.mk "/u/123").rename "/a/old" "/a/new").path = "%2Fa%2Fold") :=
  ⟨rfl, rfl, rfl, by decide, by decide⟩
/-- C6: a non-recursive delete request carries no `recursive` query
parameter at all (its query set is empty), while a recursive delete
carries `recursive=true`. -/
theorem delete_recursive_flag (f : Fs) (path : String) :
    ((f.delete path false).parameters = []) ∧
    ((f.delete path false).parameters.has "recursive" = false) ∧
    ((f.delete path true).parameters.get "recursive" = some "true") :=
  ⟨rfl, rfl, rfl⟩
/-- C8: every put request sets the query parameter `make_parents=true`;
the query set is exactly that one binding, so no variant without the
flag exists at this layer. -/
theorem put_make_parents (f : Fs) (path : String) :
    ((f.put path).parameters = [("make_parents", "true")]) ∧
    ((f.put path).parameters.get "make_parents" = some "true") :=
  ⟨rfl, rfl⟩
/-- Counterexample for C2: under the configured scope string `a`, the
response whose node has raw path `aa` converts to a handle whose base
node's path is `a` — it still begins with the configured scope string,
so a node can retain the prefix after conversion. -/
theorem pathToObject_retains_prefix_cex :
    ((Fs.mk "a").pathToObject cexFsp).map
        (fun o => "a".data.isPrefixOf o.base.path.data) = some true ∧
    ((Fs.mk "a").pathToObject cexFsp).map (fun o => o.base.path) = some "a" := by
  decide
/-- C2 (amended): whenever the conversion succeeds, the handle's base is
exactly the element of the (stripped) path sequence at `base_index`, and
every node of the handle's path and children sequences carries the single
prefix-strip of the corresponding input node's path; a stripped path can
still begin with the prefix when the raw path contained it twice, so "no
node retains the prefix" holds in that single-strip sense. -/
theorem pathToObject_base_and_strip (f : Fs) (fsp : FilesystemPath) (o : Object)
    (h : f.pathToObject fsp = some o) :
    (∃ hb : fsp.baseIndex.toNat < o.path.length,
      o.base = o.path.get ⟨fsp.baseIndex.toNat, hb⟩) ∧
    o.path = fsp.path.map (fun n => { n with path := trimPrefix n.path f.pathPrefix }) ∧
    o.children =
      fsp.children.map (fun n => { n with path := trimPrefix n.path f.pathPrefix }) := by
  simp only [Fs.pathToObject] at h
  split at h
  · rename_i hc
    injection h with h
    subst h
    exact ⟨⟨hc.2, rfl⟩, rfl, rfl⟩
  · simp at h
/-- Witness for C2: the amended statement at the concrete response
`witFsp` under scope `/u/123`. -/
theorem pathToObject_base_and_strip_witness :
    (∃ hb : witFsp.baseIndex.toNat < witObj.path.length,
      witObj.base = witObj.path.get ⟨witFsp.baseIndex.toNat, hb⟩) ∧
    witObj.path = witFsp.path.map
      (fun n => { n with path := trimPrefix n.path (Fs.mk "/u/123").pathPrefix }) ∧
    witObj.children = witFsp.children.map
      (fun n => { n with path := trimPrefix n.path (Fs.mk "/u/123").pathPrefix }) :=
  pathToObject_base_and_strip (Fs.mk "/u/123") witFsp witObj (by decide)
/-- C9: the conversion of a stat response is defined exactly when
`0 <= base_index < len(path)` — under that precondition the slice access
is in bounds, and any violating input, in particular one with an empty
path sequence, makes the operation fail. -/
theorem pathToObject_index_safety :
    (∀ (f : Fs) (fsp : FilesystemPath),
      ((f.pathToObject fsp).isSome = true ↔
        (0 ≤ fsp.baseIndex ∧ fsp.baseIndex < (fsp.path.length : Int)))) ∧
    (∀ (f : Fs) (bi : Int) (cs : List FilesystemNode) (ps : Permissions),
      f.pathToObject ⟨[], bi, cs, ps⟩ = none) := by
  have hmain : ∀ (f : Fs) (fsp : FilesystemPath),
      ((f.pathToObject fsp).isSome = true ↔
        (0 ≤ fsp.baseIndex ∧ fsp.baseIndex < (fsp.path.length : Int))) := by
    intro f fsp
    simp only [Fs.pathToObject]
    split
    · rename_i hc
      simp only [Option.isSome_some, true_iff]
      obtain ⟨h0, hlt⟩ := hc
      rw [List.length_map] at hlt
      exact ⟨h0, by omega⟩
    · rename_i hc
      constructor
      · intro h
        simp at h
      · rintro ⟨h0, hlt⟩
        exact absurd ⟨h0, by rw [List.length_map]; omega⟩ hc
  refine ⟨hmain, ?_⟩
  intro f bi cs ps
  rcases hopt : f.pathToObject ⟨[], bi, cs, ps⟩ with _ | o
  · rfl
  · exfalso
    have h := (hmain f ⟨[], bi, cs, ps⟩).mp (by rw [hopt]; rfl)
    simp at h
    omega
/-- C4: an update request's form parameters contain `created`
(resp. `modified`) exactly when the caller supplied that field, with the
value the RFC3339-with-nanoseconds rendering of the supplied time; an
update with only `modified` supplied sends exactly the `action` binding
and that one timestamp, omitting `created` entirely. -/
theorem update_timestamp_fields (f : Fs) (path : String)
    (created modified : Option GoTime) :
    ((f.update path created modified).multipartParams.has "created" = created.isSome) ∧
    ((f.update path created modified).multipartParams.has "modified" = modified.isSome) ∧
    (∀ t, created = some t →
      (f.update path created modified).multipartParams.get "created" =
        some (formatRFC3339Nano t)) ∧
    (∀ t, modified = some t →
      (f.update path created modified).multipartParams.get "modified" =
        some (formatRFC3339Nano t)) ∧
    (∀ t, (f.update path none (some t)).multipartParams =
      [("action", "update"), ("modified", formatRFC3339Nano t)]) := by
  cases created <;> cases modified <;>
    simp [Fs.update, Values.set, Values.has, Values.get, List.filter, List.find?]
/-- Witness for C4: an update carrying only a modified time of
2024-01-02T03:04:05.5Z sends that one timestamp and no created field. -/
theorem update_timestamp_fields_witness :
    ((Fs.mk "/u/1").update "/f.txt" none (some ⟨2024, 1, 2, 3, 4, 5, 500000000⟩)).multipartParams.get "modified" =
      some "2024-01-02T03:04:05.5Z" ∧
    ((Fs.mk "/u/1").update "/f.txt" none (some ⟨2024, 1, 2, 3, 4, 5, 500000000⟩)).multipartParams.has "created" = false := by
  constructor
  · rw [(update_timestamp_fields (Fs.mk "/u/1") "/f.txt" none
      (some ⟨2024, 1, 2, 3, 4, 5, 500000000⟩)).2.2.2.1 ⟨2024, 1, 2, 3, 4, 5, 500000000⟩ rfl]
    decide
  · exact (update_timestamp_fields (Fs.mk "/u/1") "/f.txt" none
      (some ⟨2024, 1, 2, 3, 4, 5, 500000000⟩)).1
